import Mathlib

/-!
Verification of the LAN discovery / client-server replication layer of the
lspire repository (src/network.rs), as a shallow embedding in Lean 4.

Modelling conventions:
- network addresses are abstract naturals;
- wall-clock and monotonic instants are naturals counting milliseconds;
- f32 fields (positions, orientations) are carried as their 32-bit IEEE
  bit patterns, i.e. naturals below 2^32 — the code never computes with
  them, it only copies and (de)serializes them, so the bit-pattern view
  is exact;
- the HashMaps of the code are association lists with map semantics
  (insert replaces the entry of an existing key);
- socket sends are recorded in an output list: a send_to to a concrete
  address is a unicast, send_to to 255.255.255.255:7879 is a broadcast,
  and a send on a connected client socket targets the connected server.
-/

namespace Lspire

/-- Bit pattern of an f32 triple (glam Vec3). -/
structure Vec3 where
  x : Nat
  y : Nat
  z : Nat
deriving DecidableEq, Repr

/-- Bit pattern of an f32 quadruple (glam Quat). -/
structure Quat where
  x : Nat
  y : Nat
  z : Nat
  w : Nat
deriving DecidableEq, Repr

/-- Vec3::ZERO: all components are the bit pattern of 0.0f32. -/
def vec3Zero : Vec3 := ⟨0, 0, 0⟩

/-- Quat::IDENTITY: (0,0,0,1); the bit pattern of 1.0f32 is 1065353216. -/
def quatIdentity : Quat := ⟨0, 0, 0, 1065353216⟩

/-- PlayerData from src/network.rs. The entity handle is an opaque
optional id. -/
structure PlayerData where
  id : Nat
  position : Vec3
  rotation : Quat
  entity : Option Nat
deriving DecidableEq, Repr

/-- ServerInfo from src/network.rs; the display name is kept as its
UTF-8 byte list and last_seen as a millisecond instant. -/
structure ServerInfo where
  name : List Nat
  player_count : Nat
  max_players : Nat
  last_seen : Nat
deriving DecidableEq, Repr

/-- NetworkMode from src/network.rs. -/
inductive NetworkMode where
  | None
  | Server
  | Client
deriving DecidableEq, Repr

/-- NetworkMessage from src/network.rs. Strings are UTF-8 byte lists,
u128 timestamps are naturals, f32 fields are bit patterns. -/
inductive NetworkMessage where
  | ServerAnnounce (name : List Nat) (player_count : Nat) (max_players : Nat)
  | DiscoveryRequest
  | JoinRequest (player_name : List Nat)
  | JoinAccept (player_id : Nat) (existing_players : List (Nat × Vec3 × Quat))
  | PlayerSpawn (player_id : Nat) (position : Vec3) (rotation : Quat)
  | PlayerUpdate (player_id : Nat) (position : Vec3) (rotation : Quat)
  | PlayerDisconnect (player_id : Nat)
  | Ping (timestamp : Nat)
  | Pong (timestamp : Nat)
deriving DecidableEq, Repr

/-- NetworkEvent from src/network.rs. -/
inductive NetworkEvent where
  | ConnectedToServer (addr : Nat)
  | PlayerJoined (id : Nat)
  | PlayerLeft (id : Nat)
  | PlayerMoved (id : Nat) (position : Vec3) (rotation : Quat)
deriving DecidableEq, Repr

/-- Destination of an outgoing datagram: socket.send_to(_, addr) is a
unicast; send_to(_, "255.255.255.255:7879") in send_message is the
broadcast; socket.send() on a connected client socket reaches the
connected server. -/
inductive Dest where
  | unicast (addr : Nat)
  | broadcast
  | connected
deriving DecidableEq, Repr

/-- UTF-8 bytes of the constant display name "LAN Server". -/
def lanServerName : List Nat := [76, 65, 78, 32, 83, 101, 114, 118, 101, 114]

/-- Association-list lookup, the model of HashMap::get. -/
def lookupA {α : Type} : List (Nat × α) → Nat → Option α
  | [], _ => none
  | (k, v) :: l, a => if k = a then some v else lookupA l a

/-- Association-list removal, the model of HashMap::remove. -/
def removeA {α : Type} : List (Nat × α) → Nat → List (Nat × α)
  | [], _ => []
  | (k, v) :: l, a => if k = a then removeA l a else (k, v) :: removeA l a

/-- Association-list insertion with replacement, the model of
HashMap::insert. -/
def insertA {α : Type} (l : List (Nat × α)) (k : Nat) (v : α) : List (Nat × α) :=
  (k, v) :: removeA l k

/-- Update-in-place of one entry, the model of HashMap::get_mut followed
by field assignments; a no-op when the key is absent. -/
def updateA {α : Type} : List (Nat × α) → Nat → (α → α) → List (Nat × α)
  | [], _, _ => []
  | (a, b) :: l, k, f =>
      if a = k then (a, f b) :: updateA l k f else (a, b) :: updateA l k f

/-- Bit length of a natural, by fuel-bounded halving; exact whenever the
fuel is at least the true bit length (128 suffices for every u128). -/
def bitLen : Nat → Nat → Nat
  | 0, _ => 0
  | fuel + 1, n => if n = 0 then 0 else bitLen fuel (n / 2) + 1

/-- Round-to-nearest-even conversion of an unsigned integer to f32 (the
semantics of Rust's integer-to-float as-cast), returned as the natural
number the resulting f32 denotes: values below 2^24 are exact, larger
ones keep a 24-bit significand, ties going to the even significand.
Inputs are below 2^128 (the u128 range); in the sliver just under 2^128
where IEEE f32 overflows to infinity the model returns the real-valued
rounding 2^128 instead — that region is reachable only through a
clock-skew wraparound and no theorem below enters it. -/
def f32RoundNat (n : Nat) : Nat :=
  if n < 16777216 then n
  else
    let shift := bitLen 128 n - 1 - 23
    let q := n / 2 ^ shift
    let r := n % 2 ^ shift
    let half := 2 ^ (shift - 1)
    if r < half then q * 2 ^ shift
    else if half < r then (q + 1) * 2 ^ shift
    else if q % 2 = 0 then q * 2 ^ shift
    else (q + 1) * 2 ^ shift

/-- Game-side replication state: the fields of NetworkState that the
message handlers read or write, plus the ServerList and PlayerRegistry
resources. ping_ms holds the natural number denoted by the stored f32. -/
structure GameState where
  mode : NetworkMode
  local_player_id : Nat
  ping_ms : Nat
  servers : List (Nat × ServerInfo)
  players : List (Nat × PlayerData)
  client_addresses : List (Nat × Nat)
deriving DecidableEq, Repr

/-- NetworkState::send_message: a Server broadcasts to
255.255.255.255:7879, a Client sends on its connected socket, and in
mode None nothing is sent. -/
def send_message (mode : NetworkMode) (msg : NetworkMessage) : List (Dest × NetworkMessage) :=
  match mode with
  | .Server => [(.broadcast, msg)]
  | .Client => [(.connected, msg)]
  | .None => []

/-- One iteration of the dispatch loop of handle_network_events
(src/network.rs lines 224-368): reacting to a single decoded message
received from addr at instant now. Returns the updated state, the
datagrams sent, and the lifecycle events emitted. -/
def handle_message (s : GameState) (now : Nat) (addr : Nat) (msg : NetworkMessage) :
    GameState × List (Dest × NetworkMessage) × List NetworkEvent :=
  match msg with
  | .ServerAnnounce name pc mp =>
      ({ s with servers := insertA s.servers addr ⟨name, pc, mp, now⟩ }, [], [])
  | .DiscoveryRequest =>
      if s.mode = .Server then
        (s, send_message s.mode
          (.ServerAnnounce lanServerName (s.players.length % 256) 8), [])
      else (s, [], [])
  | .JoinRequest _ =>
      if s.mode = .Server then
        let new_id := (s.players.length % 4294967296 + 1) % 4294967296
        let existing := s.players.map (fun kv => (kv.2.id, kv.2.position, kv.2.rotation))
        let accept : NetworkMessage := .JoinAccept new_id existing
        let addrs := insertA s.client_addresses new_id addr
        let spawn : NetworkMessage := .PlayerSpawn new_id vec3Zero quatIdentity
        let spawnSends := (addrs.filter (fun kv => kv.1 ≠ new_id)).map
          (fun kv => ((.unicast kv.2 : Dest), spawn))
        ({ s with
            client_addresses := addrs,
            players := insertA s.players new_id ⟨new_id, vec3Zero, quatIdentity, none⟩ },
          (.unicast addr, accept) :: spawnSends,
          [.PlayerJoined new_id])
      else (s, [], [])
  | .JoinAccept player_id existing_players =>
      let start : List (Nat × PlayerData) × List NetworkEvent := (s.players, [])
      let folded := existing_players.foldl
        (fun acc e =>
          if e.1 ≠ player_id then
            (insertA acc.1 e.1 ⟨e.1, e.2.1, e.2.2, none⟩,
             acc.2 ++ [.PlayerJoined e.1])
          else acc) start
      ({ s with local_player_id := player_id, players := folded.1 },
        [], folded.2 ++ [.ConnectedToServer addr])
  | .PlayerSpawn player_id position rotation =>
      if player_id ≠ s.local_player_id then
        ({ s with players := insertA s.players player_id ⟨player_id, position, rotation, none⟩ },
          [], [.PlayerJoined player_id])
      else (s, [], [])
  | .PlayerUpdate player_id position rotation =>
      if s.mode = .Server then
        let players := updateA s.players player_id
          (fun p => { p with position := position, rotation := rotation })
        let relay := (s.client_addresses.filter (fun kv => kv.1 ≠ player_id)).map
          (fun kv => ((.unicast kv.2 : Dest), (.PlayerUpdate player_id position rotation : NetworkMessage)))
        ({ s with players := players }, relay, [])
      else if player_id ≠ s.local_player_id then
        let players :=
          match lookupA s.players player_id with
          | some _ => updateA s.players player_id
              (fun p => { p with position := position, rotation := rotation })
          | none => insertA s.players player_id ⟨player_id, position, rotation, none⟩
        ({ s with players := players }, [], [.PlayerMoved player_id position rotation])
      else (s, [], [])
  | .PlayerDisconnect player_id =>
      ({ s with players := removeA s.players player_id }, [], [.PlayerLeft player_id])
  | .Ping timestamp =>
      if s.mode = .Server then
        (s, [(.unicast addr, .Pong timestamp)], [])
      else (s, [], [])
  | .Pong timestamp =>
      if s.mode = .Client then
        ({ s with ping_ms := f32RoundNat
                      ((now + 340282366920938463463374607431768211456 - timestamp) %
                        340282366920938463463374607431768211456) }, [], [])
      else (s, [], [])

/-- The update_server_discovery system (src/network.rs lines 371-390):
the periodic announce broadcast (note: its player_count is the literal
0 in the source, the system does not read the PlayerRegistry) followed
by the staleness prune of the server list. Takes the mode and the
last_discovery instant from NetworkState; returns the sends, the new
last_discovery, and the pruned server list. -/
def update_server_discovery (mode : NetworkMode) (last_discovery : Nat)
    (servers : List (Nat × ServerInfo)) (now : Nat) :
    List (Dest × NetworkMessage) × Nat × List (Nat × ServerInfo) :=
  let announce :=
    if mode = .Server ∧ now - last_discovery > 2000 then
      (send_message mode (.ServerAnnounce lanServerName 0 8), now)
    else ([], last_discovery)
  (announce.1, announce.2, servers.filter (fun kv => now - kv.2.last_seen < 5000))

/-! Session-state construction (NetworkState::create_server,
NetworkState::connect_to_server, src/network.rs lines 131-185) and the
lobby_action caller (src/lobby.rs lines 178-183). The fallible socket
calls are modelled by an oracle that says which of them succeed; the
functions perform them in source order and propagate the first
failure. -/

/-- Socket-call outcomes for one role-start attempt: whether bind,
set_nonblocking, set_broadcast, connect and the initial send succeed. -/
structure IOOracle where
  bindOk : Bool
  nonblockOk : Bool
  broadcastOk : Bool
  connectOk : Bool
  sendOk : Bool
deriving DecidableEq, Repr

/-- The std::io::Error values the modelled socket calls can produce. -/
inductive IOErr where
  | bindErr
  | nonblockErr
  | broadcastErr
  | connectErr
  | sendErr
deriving DecidableEq, Repr

/-- Session-state fields of NetworkState relevant to role starting. -/
structure NetState where
  mode : NetworkMode
  socket : Option Nat
  server_addr : Option Nat
  local_player_id : Nat
  ping_ms : Nat
deriving DecidableEq, Repr

/-- NetworkState::default: mode None, no socket, no server address. -/
def NetState.default : NetState :=
  { mode := .None, socket := none, server_addr := none,
    local_player_id := 0, ping_ms := 0 }

/-- NetworkState::create_server: bind 0.0.0.0:7878, set_nonblocking,
set_broadcast, each propagating its failure; on success a fresh state
with mode Server and the new socket. -/
def create_server (io : IOOracle) : Except IOErr NetState :=
  if !io.bindOk then .error .bindErr
  else if !io.nonblockOk then .error .nonblockErr
  else if !io.broadcastOk then .error .broadcastErr
  else .ok { mode := .Server, socket := some 7878, server_addr := none,
             local_player_id := 0, ping_ms := 0 }

/-- NetworkState::connect_to_server: bind an ephemeral socket,
set_nonblocking, connect, send one JoinRequest — each propagating its
failure before any field of self is assigned; only after all succeed
are socket, server_addr and mode written. Returns the state after the
call together with the error, if any. -/
def connect_to_server (s : NetState) (io : IOOracle) (srvAddr : Nat) :
    NetState × Option IOErr :=
  if !io.bindOk then (s, some .bindErr)
  else if !io.nonblockOk then (s, some .nonblockErr)
  else if !io.connectOk then (s, some .connectErr)
  else if !io.sendOk then (s, some .sendErr)
  else ({ s with socket := some 0, server_addr := some srvAddr,
                 mode := .Client }, none)

/-- The CreateServer arm of lobby_action (src/lobby.rs lines 178-183):
the NetworkState resource is overwritten only when create_server
returns Ok; on Err it is left untouched. -/
def lobby_create_server (cur : NetState) (io : IOOracle) : NetState :=
  match create_server io with
  | .ok st => st
  | .error _ => cur

/-! Wire format: bincode v1 with its default options (fixed-width
little-endian integers, u32 enum tags, u64 length prefixes), as used by
bincode::serialize / bincode::deserialize on NetworkMessage. Buffers
are lists of byte values. -/

/-- Write a natural as k little-endian bytes (the fixint encoding of a
k-byte unsigned integer). -/
def wbytes : Nat → Nat → List Nat
  | 0, _ => []
  | k + 1, n => n % 256 :: wbytes k (n / 256)

/-- Read a k-byte little-endian unsigned integer. -/
def rbytes : Nat → List Nat → Option (Nat × List Nat)
  | 0, l => some (0, l)
  | _ + 1, [] => none
  | k + 1, b :: l => (rbytes k l).map (fun p => (b + 256 * p.1, p.2))

/-- Read n raw bytes. -/
def rraw : Nat → List Nat → Option (List Nat × List Nat)
  | 0, l => some ([], l)
  | _ + 1, [] => none
  | k + 1, b :: l => (rraw k l).map (fun p => (b :: p.1, p.2))

/-- Encoding of a Rust String: u64 byte length then the UTF-8 bytes. -/
def encBytes (s : List Nat) : List Nat := wbytes 8 s.length ++ s

/-- Decoding of a Rust String. -/
def rstr (l : List Nat) : Option (List Nat × List Nat) :=
  match rbytes 8 l with
  | some (n, r) => rraw n r
  | none => none

/-- Encoding of a glam Vec3: three f32 bit patterns, 4 bytes each. -/
def encVec3 (v : Vec3) : List Nat := wbytes 4 v.x ++ wbytes 4 v.y ++ wbytes 4 v.z

/-- Decoding of a glam Vec3. -/
def rvec3 (l : List Nat) : Option (Vec3 × List Nat) :=
  match rbytes 4 l with
  | some (x, l) =>
    match rbytes 4 l with
    | some (y, l) =>
      match rbytes 4 l with
      | some (z, l) => some (⟨x, y, z⟩, l)
      | none => none
    | none => none
  | none => none

/-- Encoding of a glam Quat: four f32 bit patterns. -/
def encQuat (q : Quat) : List Nat :=
  wbytes 4 q.x ++ wbytes 4 q.y ++ wbytes 4 q.z ++ wbytes 4 q.w

/-- Decoding of a glam Quat. -/
def rquat (l : List Nat) : Option (Quat × List Nat) :=
  match rbytes 4 l with
  | some (x, l) =>
    match rbytes 4 l with
    | some (y, l) =>
      match rbytes 4 l with
      | some (z, l) =>
        match rbytes 4 l with
        | some (w, l) => some (⟨x, y, z, w⟩, l)
        | none => none
      | none => none
    | none => none
  | none => none

/-- Encoding of one (u32, Vec3, Quat) element of existing_players. -/
def encTriple (t : Nat × Vec3 × Quat) : List Nat :=
  wbytes 4 t.1 ++ encVec3 t.2.1 ++ encQuat t.2.2

/-- Decoding of one (u32, Vec3, Quat) element. -/
def rtriple (l : List Nat) : Option ((Nat × Vec3 × Quat) × List Nat) :=
  match rbytes 4 l with
  | some (i, l) =>
    match rvec3 l with
    | some (v, l) =>
      match rquat l with
      | some (q, l) => some ((i, v, q), l)
      | none => none
    | none => none
  | none => none

/-- Encoding of a Vec of elements: u64 length then the elements. -/
def encTriples (l : List (Nat × Vec3 × Quat)) : List Nat :=
  wbytes 8 l.length ++ (l.map encTriple).flatten

/-- Decoding of n sequence elements. -/
def rtriples : Nat → List Nat → Option (List (Nat × Vec3 × Quat) × List Nat)
  | 0, l => some ([], l)
  | k + 1, l =>
    match rtriple l with
    | some (t, l) => (rtriples k l).map (fun p => (t :: p.1, p.2))
    | none => none

/-- bincode::serialize on NetworkMessage: a u32 variant tag followed by
the fields in declaration order. -/
def encodeMsg : NetworkMessage → List Nat
  | .ServerAnnounce name pc mp => wbytes 4 0 ++ encBytes name ++ wbytes 1 pc ++ wbytes 1 mp
  | .DiscoveryRequest => wbytes 4 1
  | .JoinRequest pn => wbytes 4 2 ++ encBytes pn
  | .JoinAccept pid ex => wbytes 4 3 ++ wbytes 4 pid ++ encTriples ex
  | .PlayerSpawn pid p r => wbytes 4 4 ++ wbytes 4 pid ++ encVec3 p ++ encQuat r
  | .PlayerUpdate pid p r => wbytes 4 5 ++ wbytes 4 pid ++ encVec3 p ++ encQuat r
  | .PlayerDisconnect pid => wbytes 4 6 ++ wbytes 4 pid
  | .Ping t => wbytes 4 7 ++ wbytes 16 t
  | .Pong t => wbytes 4 8 ++ wbytes 16 t

/-- bincode::deserialize on NetworkMessage: read the u32 tag and then
the fields of the corresponding variant, failing on an unknown tag or a
short buffer; the unread remainder of the buffer is returned. -/
def decodeMsg (l : List Nat) : Option (NetworkMessage × List Nat) :=
  match rbytes 4 l with
  | none => none
  | some (tag, l) =>
    if tag = 0 then
      match rstr l with
      | some (name, l) =>
        match rbytes 1 l with
        | some (pc, l) =>
          match rbytes 1 l with
          | some (mp, l) => some (.ServerAnnounce name pc mp, l)
          | none => none
        | none => none
      | none => none
    else if tag = 1 then some (.DiscoveryRequest, l)
    else if tag = 2 then
      match rstr l with
      | some (pn, l) => some (.JoinRequest pn, l)
      | none => none
    else if tag = 3 then
      match rbytes 4 l with
      | some (pid, l) =>
        match rbytes 8 l with
        | some (n, l) =>
          match rtriples n l with
          | some (ex, l) => some (.JoinAccept pid ex, l)
          | none => none
        | none => none
      | none => none
    else if tag = 4 then
      match rbytes 4 l with
      | some (pid, l) =>
        match rvec3 l with
        | some (p, l) =>
          match rquat l with
          | some (r, l) => some (.PlayerSpawn pid p r, l)
          | none => none
        | none => none
      | none => none
    else if tag = 5 then
      match rbytes 4 l with
      | some (pid, l) =>
        match rvec3 l with
        | some (p, l) =>
          match rquat l with
          | some (r, l) => some (.PlayerUpdate pid p r, l)
          | none => none
        | none => none
      | none => none
    else if tag = 6 then
      match rbytes 4 l with
      | some (pid, l) => some (.PlayerDisconnect pid, l)
      | none => none
    else if tag = 7 then
      match rbytes 16 l with
      | some (t, l) => some (.Ping t, l)
      | none => none
    else if tag = 8 then
      match rbytes 16 l with
      | some (t, l) => some (.Pong t, l)
      | none => none
    else none

/-- Range condition for a Rust value of a k-byte unsigned type. -/
def fitsIn (k n : Nat) : Bool := n < 256 ^ k

/-- Well-formedness of a byte list standing for a Rust String: every
entry is a byte and the length fits the u64 prefix. -/
def wfBytes (s : List Nat) : Bool :=
  fitsIn 8 s.length && s.all (fun b => b < 256)

/-- Well-formedness of a Vec3 bit pattern. -/
def wfVec3 (v : Vec3) : Bool := fitsIn 4 v.x && fitsIn 4 v.y && fitsIn 4 v.z

/-- Well-formedness of a Quat bit pattern. -/
def wfQuat (q : Quat) : Bool :=
  fitsIn 4 q.x && fitsIn 4 q.y && fitsIn 4 q.z && fitsIn 4 q.w

/-- Well-formedness of a NetworkMessage: every field fits the Rust type
it is declared with. Guaranteed by construction in the Rust source. -/
def wfMsg : NetworkMessage → Bool
  | .ServerAnnounce name pc mp => wfBytes name && fitsIn 1 pc && fitsIn 1 mp
  | .DiscoveryRequest => true
  | .JoinRequest pn => wfBytes pn
  | .JoinAccept pid ex =>
      fitsIn 4 pid && fitsIn 8 ex.length &&
      ex.all (fun t => fitsIn 4 t.1 && wfVec3 t.2.1 && wfQuat t.2.2)
  | .PlayerSpawn pid p r => fitsIn 4 pid && wfVec3 p && wfQuat r
  | .PlayerUpdate pid p r => fitsIn 4 pid && wfVec3 p && wfQuat r
  | .PlayerDisconnect pid => fitsIn 4 pid
  | .Ping t => fitsIn 16 t
  | .Pong t => fitsIn 16 t

/-! Round-trip lemmas for the wire-format readers. -/

theorem rbytes_wbytes (k : Nat) : ∀ (n : Nat) (r : List Nat),
    rbytes k (wbytes k n ++ r) = some (n % 256 ^ k, r) := by
  induction k with
  | zero => intro n r; simp [wbytes, rbytes, Nat.mod_one]
  | succ k ih =>
      intro n r
      rw [pow_succ', Nat.mod_mul]
      simp [wbytes, rbytes, ih]

theorem rbytes_wbytes_of_lt {k n : Nat} (h : n < 256 ^ k) (r : List Nat) :
    rbytes k (wbytes k n ++ r) = some (n, r) := by
  rw [rbytes_wbytes, Nat.mod_eq_of_lt h]

theorem rraw_append (xs : List Nat) (r : List Nat) :
    rraw xs.length (xs ++ r) = some (xs, r) := by
  induction xs with
  | nil => simp [rraw]
  | cons b l ih => simp [rraw, ih]

theorem rstr_encBytes {s : List Nat} (h : s.length < 256 ^ 8) (r : List Nat) :
    rstr (encBytes s ++ r) = some (s, r) := by
  simp [rstr, encBytes, List.append_assoc, rbytes_wbytes_of_lt h, rraw_append]

theorem rvec3_encVec3 {v : Vec3} (h : wfVec3 v = true) (r : List Nat) :
    rvec3 (encVec3 v ++ r) = some (v, r) := by
  simp only [wfVec3, fitsIn, Bool.and_eq_true, decide_eq_true_eq] at h
  simp [rvec3, encVec3, List.append_assoc, rbytes_wbytes_of_lt h.1.1,
    rbytes_wbytes_of_lt h.1.2, rbytes_wbytes_of_lt h.2]

theorem rquat_encQuat {q : Quat} (h : wfQuat q = true) (r : List Nat) :
    rquat (encQuat q ++ r) = some (q, r) := by
  simp only [wfQuat, fitsIn, Bool.and_eq_true, decide_eq_true_eq] at h
  simp [rquat, encQuat, List.append_assoc, rbytes_wbytes_of_lt h.1.1.1,
    rbytes_wbytes_of_lt h.1.1.2, rbytes_wbytes_of_lt h.1.2,
    rbytes_wbytes_of_lt h.2]

theorem rtriple_encTriple {t : Nat × Vec3 × Quat}
    (h1 : t.1 < 256 ^ 4) (h2 : wfVec3 t.2.1 = true) (h3 : wfQuat t.2.2 = true)
    (r : List Nat) :
    rtriple (encTriple t ++ r) = some (t, r) := by
  simp [rtriple, encTriple, List.append_assoc, rbytes_wbytes_of_lt h1,
    rvec3_encVec3 h2, rquat_encQuat h3]

theorem rtriples_encTriples (l : List (Nat × Vec3 × Quat))
    (h : l.all (fun t => fitsIn 4 t.1 && wfVec3 t.2.1 && wfQuat t.2.2) = true)
    (r : List Nat) :
    rtriples l.length ((l.map encTriple).flatten ++ r) = some (l, r) := by
  induction l with
  | nil => simp [rtriples]
  | cons t l ih =>
      simp only [List.all_cons, Bool.and_eq_true, fitsIn, decide_eq_true_eq] at h
      simp [rtriples, List.append_assoc,
        rtriple_encTriple h.1.1.1 h.1.1.2 h.1.2, ih (by
          simp only [List.all_eq_true] at h ⊢
          intro x hx
          exact h.2 x hx)]

theorem decodeMsg_encodeMsg (m : NetworkMessage) (h : wfMsg m = true) (r : List Nat) :
    decodeMsg (encodeMsg m ++ r) = some (m, r) := by
  cases m with
  | ServerAnnounce name pc mp =>
      simp only [wfMsg, wfBytes, fitsIn, Bool.and_eq_true, decide_eq_true_eq] at h
      obtain ⟨⟨⟨hlen, _⟩, hpc⟩, hmp⟩ := h
      simp [decodeMsg, encodeMsg, List.append_assoc,
        rbytes_wbytes_of_lt (show (0 : Nat) < 256 ^ 4 by norm_num),
        rstr_encBytes hlen, rbytes_wbytes_of_lt hpc, rbytes_wbytes_of_lt hmp]
  | DiscoveryRequest =>
      simp [decodeMsg, encodeMsg,
        rbytes_wbytes_of_lt (show (1 : Nat) < 256 ^ 4 by norm_num)]
  | JoinRequest pn =>
      simp only [wfMsg, wfBytes, fitsIn, Bool.and_eq_true, decide_eq_true_eq] at h
      simp [decodeMsg, encodeMsg, List.append_assoc,
        rbytes_wbytes_of_lt (show (2 : Nat) < 256 ^ 4 by norm_num),
        rstr_encBytes h.1]
  | JoinAccept pid ex =>
      simp only [wfMsg, fitsIn, Bool.and_eq_true, decide_eq_true_eq] at h
      obtain ⟨⟨hpid, hlen⟩, hall⟩ := h
      simp [decodeMsg, encodeMsg, encTriples, List.append_assoc,
        rbytes_wbytes_of_lt (show (3 : Nat) < 256 ^ 4 by norm_num),
        rbytes_wbytes_of_lt hpid, rbytes_wbytes_of_lt hlen,
        rtriples_encTriples ex hall]
  | PlayerSpawn pid p q =>
      simp only [wfMsg, fitsIn, Bool.and_eq_true, decide_eq_true_eq] at h
      obtain ⟨⟨hpid, hp⟩, hq⟩ := h
      simp [decodeMsg, encodeMsg, List.append_assoc,
        rbytes_wbytes_of_lt (show (4 : Nat) < 256 ^ 4 by norm_num),
        rbytes_wbytes_of_lt hpid, rvec3_encVec3 hp, rquat_encQuat hq]
  | PlayerUpdate pid p q =>
      simp only [wfMsg, fitsIn, Bool.and_eq_true, decide_eq_true_eq] at h
      obtain ⟨⟨hpid, hp⟩, hq⟩ := h
      simp [decodeMsg, encodeMsg, List.append_assoc,
        rbytes_wbytes_of_lt (show (5 : Nat) < 256 ^ 4 by norm_num),
        rbytes_wbytes_of_lt hpid, rvec3_encVec3 hp, rquat_encQuat hq]
  | PlayerDisconnect pid =>
      simp only [wfMsg, fitsIn, decide_eq_true_eq] at h
      simp [decodeMsg, encodeMsg, List.append_assoc,
        rbytes_wbytes_of_lt (show (6 : Nat) < 256 ^ 4 by norm_num),
        rbytes_wbytes_of_lt h]
  | Ping t =>
      simp only [wfMsg, fitsIn, decide_eq_true_eq] at h
      simp [decodeMsg, encodeMsg, List.append_assoc,
        rbytes_wbytes_of_lt (show (7 : Nat) < 256 ^ 4 by norm_num),
        rbytes_wbytes_of_lt h]
  | Pong t =>
      simp only [wfMsg, fitsIn, decide_eq_true_eq] at h
      simp [decodeMsg, encodeMsg, List.append_assoc,
        rbytes_wbytes_of_lt (show (8 : Nat) < 256 ^ 4 by norm_num),
        rbytes_wbytes_of_lt h]

/-! Association-list lemmas. -/

theorem lookupA_insertA_self {α : Type} (l : List (Nat × α)) (k : Nat) (v : α) :
    lookupA (insertA l k v) k = some v := by
  simp [insertA, lookupA]

theorem lookupA_updateA {α : Type} (l : List (Nat × α)) (k : Nat) (f : α → α) :
    lookupA (updateA l k f) k = (lookupA l k).map f := by
  induction l with
  | nil => simp [updateA, lookupA]
  | cons kv l ih =>
      obtain ⟨a, b⟩ := kv
      by_cases h : a = k
      · subst h
        simp [updateA, lookupA]
      · simp [updateA, lookupA, h, ih]

theorem lookupA_removeA_ne {α : Type} (l : List (Nat × α)) (k a : Nat) (h : ¬ k = a) :
    lookupA (removeA l k) a = lookupA l a := by
  induction l with
  | nil => rfl
  | cons kv l ih =>
      obtain ⟨x, b⟩ := kv
      by_cases hxk : x = k
      · subst hxk
        have hxa : ¬ x = a := h
        simp [removeA, lookupA, hxa, ih]
      · simp [removeA, lookupA, hxk, ih]

theorem lookupA_eq_none_of_not_mem {α : Type} (l : List (Nat × α)) (k : Nat)
    (h : k ∉ l.map Prod.fst) : lookupA l k = none := by
  induction l with
  | nil => rfl
  | cons kv l ih =>
      obtain ⟨a, b⟩ := kv
      simp only [List.map_cons, List.mem_cons] at h
      push_neg at h
      have hak : ¬ a = k := fun hh => h.1 hh.symm
      simp [lookupA, hak, ih h.2]

theorem lookupA_filter_eq_none {α : Type} (l : List (Nat × α)) (p : Nat × α → Bool)
    (k : Nat) (h : k ∉ l.map Prod.fst) : lookupA (l.filter p) k = none := by
  apply lookupA_eq_none_of_not_mem
  intro hm
  apply h
  simp only [List.mem_map] at hm ⊢
  obtain ⟨kv, hkv, heq⟩ := hm
  exact ⟨kv, (List.mem_filter.mp hkv).1, heq⟩

theorem lookupA_filter_of_nodup {α : Type} (l : List (Nat × α))
    (hnd : (l.map Prod.fst).Nodup) (k : Nat) (v : α) (p : Nat × α → Bool)
    (h : lookupA l k = some v) :
    lookupA (l.filter p) k = if p (k, v) then some v else none := by
  induction l with
  | nil => simp [lookupA] at h
  | cons kv l ih =>
      obtain ⟨a, b⟩ := kv
      simp only [List.map_cons, List.nodup_cons] at hnd
      by_cases hak : a = k
      · subst hak
        simp only [lookupA, eq_self_iff_true, if_true, Option.some.injEq] at h
        subst h
        cases hp : p (a, b) with
        | true => simp [List.filter_cons, hp, lookupA]
        | false =>
            simp [List.filter_cons, hp, lookupA_filter_eq_none l p a hnd.1]
      · simp only [lookupA, if_neg hak] at h
        cases hp : p (a, b) with
        | true =>
            simp only [List.filter_cons, hp, if_pos]
            simp [lookupA, hak, ih hnd.2 h]
        | false =>
            simp only [List.filter_cons, hp, Bool.false_eq_true, if_neg]
            exact ih hnd.2 h

theorem handle_message_preserves_servers (s : GameState) (now addr : Nat)
    (msg : NetworkMessage) (a : Nat) (i : ServerInfo)
    (h : lookupA s.servers a = some i) :
    ∃ j, lookupA (handle_message s now addr msg).1.servers a = some j := by
  cases msg with
  | ServerAnnounce name pc mp =>
      by_cases hax : addr = a
      · subst hax
        exact ⟨⟨name, pc, mp, now⟩, by simp [handle_message, lookupA_insertA_self]⟩
      · refine ⟨i, ?_⟩
        simp only [handle_message]
        simp [insertA, lookupA, hax, lookupA_removeA_ne _ _ _ hax, h]
  | DiscoveryRequest =>
      refine ⟨i, ?_⟩
      simp only [handle_message]
      split <;> simpa
  | JoinRequest pn =>
      refine ⟨i, ?_⟩
      simp only [handle_message]
      split <;> simpa
  | JoinAccept pid ex =>
      exact ⟨i, by simpa [handle_message] using h⟩
  | PlayerSpawn pid p q =>
      refine ⟨i, ?_⟩
      simp only [handle_message]
      split <;> simpa
  | PlayerUpdate pid p q =>
      refine ⟨i, ?_⟩
      simp only [handle_message]
      split
      · simpa
      · split <;> simpa
  | PlayerDisconnect pid =>
      exact ⟨i, by simpa [handle_message] using h⟩
  | Ping t =>
      refine ⟨i, ?_⟩
      simp only [handle_message]
      split <;> simpa
  | Pong t =>
      refine ⟨i, ?_⟩
      simp only [handle_message]
      split <;> simpa

/-! Concrete session states used to evaluate the handlers. -/

/-- Host session right after create_server: mode Server, everything empty. -/
def hostState0 : GameState :=
  { mode := .Server, local_player_id := 0, ping_ms := 0,
    servers := [], players := [], client_addresses := [] }

/-- The host state after one JoinRequest from address 10 was processed
(one registered participant, id 1). -/
def hostState1 : GameState := (handle_message hostState0 0 10 (.JoinRequest [])).1

/-- A host with three participants 1, 2, 3 at addresses 11, 12, 13. -/
def threePlayerHost : GameState :=
  { mode := .Server, local_player_id := 0, ping_ms := 0, servers := [],
    players := [(1, ⟨1, vec3Zero, quatIdentity, none⟩),
                (2, ⟨2, vec3Zero, quatIdentity, none⟩),
                (3, ⟨3, vec3Zero, quatIdentity, none⟩)],
    client_addresses := [(1, 11), (2, 12), (3, 13)] }

/-- A joined client session that knows only itself. -/
def clientState : GameState :=
  { mode := .Client, local_player_id := 1, ping_ms := 0, servers := [],
    players := [(1, ⟨1, vec3Zero, quatIdentity, none⟩)], client_addresses := [] }

/-- A process holding one catalog entry for address 5, last seen at 0. -/
def oneServerState : GameState :=
  { mode := .None, local_player_id := 0, ping_ms := 0,
    servers := [(5, ⟨lanServerName, 3, 8, 0⟩)], players := [], client_addresses := [] }

/-! Claim theorems. -/

/-- C1: the claim says one JoinRequest grows the registry by exactly 1 and
assigns an id never used before in the session, including after
disconnects. The handler computes new_id = players.len() + 1, so after the
session join(10)=id 1, join(20)=id 2, disconnect(1), a further
JoinRequest from address 30 is assigned id 2 again — an id already used
and still live — and the registry size stays 1 instead of growing to 2:
the code contradicts the claim (and the spec's never-reused rule). This
theorem evaluates the handler on that failing session. -/
theorem C1_join_id_reuse_eval :
    (let s2 := (handle_message hostState1 0 20 (.JoinRequest [])).1
     let s3 := (handle_message s2 0 99 (.PlayerDisconnect 1)).1
     let r4 := handle_message s3 0 30 (.JoinRequest [])
     s3.players.length = 1 ∧
     lookupA s3.players 2 = some ⟨2, vec3Zero, quatIdentity, none⟩ ∧
     r4.2.2 = [.PlayerJoined 2] ∧
     r4.2.1.head? = some (.unicast 30, .JoinAccept 2 [(2, vec3Zero, quatIdentity)]) ∧
     r4.1.players.length = 1) := by
  decide

/-- C2: a host that receives a PlayerUpdate for a participant A it knows
overwrites the authoritative record of A (position and rotation, keeping
the entity handle), and the exact list of datagrams sent is one unicast
of the identical update to the address of every client_addresses entry
other than A — so never back to A and never a broadcast. -/
theorem C2_relay_exclusion (s : GameState) (now a A : Nat) (pos : Vec3) (rot : Quat)
    (pd : PlayerData) (hmode : s.mode = .Server) (hA : lookupA s.players A = some pd) :
    (handle_message s now a (.PlayerUpdate A pos rot)).1.players
        = updateA s.players A (fun p => { p with position := pos, rotation := rot }) ∧
    lookupA (handle_message s now a (.PlayerUpdate A pos rot)).1.players A
        = some { pd with position := pos, rotation := rot } ∧
    (handle_message s now a (.PlayerUpdate A pos rot)).2.1
        = (s.client_addresses.filter (fun kv => kv.1 ≠ A)).map
            (fun kv => ((.unicast kv.2 : Dest), (.PlayerUpdate A pos rot : NetworkMessage))) ∧
    ∀ d m2, (d, m2) ∈ (handle_message s now a (.PlayerUpdate A pos rot)).2.1 →
      m2 = .PlayerUpdate A pos rot ∧
      ∃ id addrB, (id, addrB) ∈ s.client_addresses ∧ id ≠ A ∧ d = .unicast addrB := by
  have hred : handle_message s now a (.PlayerUpdate A pos rot)
      = ({ s with players := updateA s.players A
                    (fun p => { p with position := pos, rotation := rot }) },
         (s.client_addresses.filter (fun kv => kv.1 ≠ A)).map
           (fun kv => ((.unicast kv.2 : Dest), (.PlayerUpdate A pos rot : NetworkMessage))),
         []) := by
    simp [handle_message, hmode]
  rw [hred]
  refine ⟨rfl, ?_, rfl, ?_⟩
  · show lookupA (updateA s.players A _) A = _
    rw [lookupA_updateA, hA]
    rfl
  · intro d m2 hm
    simp only [List.mem_map, List.mem_filter, decide_eq_true_eq] at hm
    obtain ⟨kv, ⟨hmem, hne⟩, heq⟩ := hm
    refine ⟨(congrArg Prod.snd heq).symm, kv.1, kv.2, hmem, hne,
      (congrArg Prod.fst heq).symm⟩

/-- C2 witness: in a host with participants {1, 2, 3} at addresses
{11, 12, 13}, an update from participant 1 is relayed exactly to
addresses 12 and 13. -/
theorem C2_relay_exclusion_witness :
    (handle_message threePlayerHost 0 11 (.PlayerUpdate 1 ⟨5, 6, 7⟩ quatIdentity)).2.1
      = [(.unicast 12, .PlayerUpdate 1 ⟨5, 6, 7⟩ quatIdentity),
         (.unicast 13, .PlayerUpdate 1 ⟨5, 6, 7⟩ quatIdentity)] :=
  (C2_relay_exclusion threePlayerHost 0 11 1 ⟨5, 6, 7⟩ quatIdentity
    ⟨1, vec3Zero, quatIdentity, none⟩ rfl (by decide)).2.2.1.trans (by decide)

/-- C3: the claim says players and client_addresses always have identical
key sets. PlayerDisconnect removes the id only from players (line 347 of
src/network.rs) and leaves client_addresses untouched, so after a join of
id 1 from address 10 followed by PlayerDisconnect{1} the key sets are
{} and {1}: the code contradicts the claimed invariant. This theorem
evaluates the handlers on that failing session. -/
theorem C3_keyset_divergence_eval :
    ((handle_message hostState1 0 99 (.PlayerDisconnect 1)).1.players.map Prod.fst
        = ([] : List Nat)) ∧
    ((handle_message hostState1 0 99 (.PlayerDisconnect 1)).1.client_addresses.map Prod.fst
        = [1]) := by
  decide

/-- C4: the claim says the periodic ServerAnnounce broadcast carries the
current participant count. The update_server_discovery system does not
read the PlayerRegistry and hardcodes player_count: 0, so a host with one
registered participant still announces 0: the code contradicts the claim
(the DiscoveryRequest reply path, by contrast, does send players.len()).
This theorem evaluates the periodic announce at that failing state. -/
theorem C4_announce_count_eval :
    hostState1.players.length = 1 ∧
    (update_server_discovery hostState1.mode 0 hostState1.servers 2001).1
      = [(.broadcast, .ServerAnnounce lanServerName 0 8)] := by
  decide

/-- C5 counterexample: a host with one participant receiving a
DiscoveryRequest from address 42 emits exactly one ServerAnnounce, and it
is sent to the broadcast address, not unicast to the sender 42 — refuting
the claim that the reply is a unicast back to the sender address. -/
theorem C5_counterexample :
    (handle_message hostState1 0 42 .DiscoveryRequest).2.1
        = [(.broadcast, .ServerAnnounce lanServerName 1 8)] ∧
    ∀ p ∈ (handle_message hostState1 0 42 .DiscoveryRequest).2.1,
      p.1 ≠ Dest.unicast 42 := by
  decide

/-- C5 amended: a host receiving a DiscoveryRequest from any address
replies immediately with a ServerAnnounce carrying the current
participant count, sent through send_message, which in Server mode
transmits to the broadcast address 255.255.255.255:7879 rather than
unicast to the sender; the state is unchanged and no event is emitted. -/
theorem C5_discovery_reply (s : GameState) (now a : Nat) (hmode : s.mode = .Server) :
    handle_message s now a .DiscoveryRequest
      = (s, [(.broadcast, .ServerAnnounce lanServerName (s.players.length % 256) 8)], []) := by
  simp [handle_message, send_message, hmode]

/-- C5 witness: the amended reply behavior evaluated on a host with one
participant. -/
theorem C5_discovery_reply_witness :
    handle_message hostState1 0 42 .DiscoveryRequest
      = (hostState1, [(.broadcast, .ServerAnnounce lanServerName 1 8)], []) :=
  (C5_discovery_reply hostState1 0 42 (by decide)).trans (by decide)

/-- C6 counterexample: an entry last refreshed at t = 0 and checked at
exactly t + 5000 ms — a time the claim says it must still be present —
is pruned, because retention requires elapsed < 5 s strictly. -/
theorem C6_counterexample :
    (5000 : Nat) ≤ 0 + 5000 ∧
    lookupA (update_server_discovery .None 0 oneServerState.servers 5000).2.2 5 = none := by
  decide

/-- C6 amended: a catalog entry for address a last refreshed at
info.last_seen survives maintenance at instant now exactly when
now − last_seen < 5000 ms (so it is present strictly before t + 5 s and
absent from t + 5 s on), and message handling never removes a catalog
entry, making the maintenance prune the only removal path. -/
theorem C6_catalog_expiry (mode : NetworkMode) (ld now a : Nat) (s : GameState)
    (info : ServerInfo) (hnd : (s.servers.map Prod.fst).Nodup)
    (h : lookupA s.servers a = some info) :
    lookupA (update_server_discovery mode ld s.servers now).2.2 a
      = (if now - info.last_seen < 5000 then some info else none) ∧
    ∀ (now2 addr : Nat) (msg : NetworkMessage),
      ∃ j, lookupA (handle_message s now2 addr msg).1.servers a = some j := by
  constructor
  · have hf := lookupA_filter_of_nodup s.servers hnd a info
      (fun kv => now - kv.2.last_seen < 5000) h
    simpa [update_server_discovery] using hf
  · intro now2 addr msg
    exact handle_message_preserves_servers s now2 addr msg a info h

/-- C6 witness: the same entry one millisecond before the window closes
is retained. -/
theorem C6_catalog_expiry_witness :
    lookupA (update_server_discovery .None 0 oneServerState.servers 4999).2.2 5
      = some ⟨lanServerName, 3, 8, 0⟩ :=
  ((C6_catalog_expiry .None 0 4999 5 oneServerState ⟨lanServerName, 3, 8, 0⟩
    (by decide) (by decide)).1).trans (by decide)

/-- C7: bincode round-trip — decoding the encoding of any well-formed
NetworkMessage of any of the nine kinds returns the message field for
field, and leaves exactly the trailing bytes, so one message is
self-delimiting inside a datagram; encoding is a function of the message
alone, hence deterministic. -/
theorem C7_wire_roundtrip (m : NetworkMessage) (r : List Nat) (h : wfMsg m = true) :
    decodeMsg (encodeMsg m ++ r) = some (m, r) :=
  decodeMsg_encodeMsg m h r

/-- C7 witness: round-trip of a concrete JoinAccept with one existing
participant and two trailing bytes. -/
theorem C7_wire_roundtrip_witness :
    decodeMsg (encodeMsg (.JoinAccept 2 [(1, ⟨1, 2, 3⟩, quatIdentity)]) ++ [9, 9])
      = some (.JoinAccept 2 [(1, ⟨1, 2, 3⟩, quatIdentity)], [9, 9]) :=
  C7_wire_roundtrip (.JoinAccept 2 [(1, ⟨1, 2, 3⟩, quatIdentity)]) [9, 9] (by decide)

/-- C8: role starting is atomic. If any socket call of connect_to_server
fails (bind, set_nonblocking, connect, or the JoinRequest send), the call
reports the failure and the session state is returned unchanged — same
role, no socket stored, no host address recorded. create_server reports a
bind failure synchronously, and its caller in lobby_action keeps the old
session state whenever create_server fails. -/
theorem C8_start_failure_atomic (s : NetState) (io : IOOracle) (addr : Nat) :
    (∀ e, (connect_to_server s io addr).2 = some e → (connect_to_server s io addr).1 = s) ∧
    (io.bindOk = false → create_server io = .error .bindErr) ∧
    (∀ e, create_server io = .error e → lobby_create_server s io = s) := by
  obtain ⟨b1, b2, b3, b4, b5⟩ := io
  cases b1 <;> cases b2 <;> cases b3 <;> cases b4 <;> cases b5 <;>
    simp [connect_to_server, create_server, lobby_create_server]

/-- C8 witness: with a failing bind, connect_to_server leaves the default
session state untouched. -/
theorem C8_start_failure_atomic_witness :
    (connect_to_server NetState.default ⟨false, true, true, true, true⟩ 5).1
      = NetState.default :=
  (C8_start_failure_atomic NetState.default ⟨false, true, true, true, true⟩ 5).1
    .bindErr (by decide)

/-- C9 counterexample: the handler stores (now − timestamp) as f32, a
round-to-nearest-even cast. A client receiving Pong{0} at now = 2^24 + 1
(with clocks non-decreasing) stores the rounded 2^24 = 16777216, not the
exact difference 16777217 — refuting the claim that the stored latency
always equals t1 − t0. -/
theorem C9_counterexample :
    (handle_message clientState 16777217 1 (.Pong 0)).1.ping_ms = 16777216 ∧
    (handle_message clientState 16777217 1 (.Pong 0)).1.ping_ms ≠ 16777217 - 0 := by
  decide

/-- C9 amended: a client receiving Pong{t0} at wall-clock now with
non-decreasing clocks (t0 ≤ now, now below the u128 range) stores the
f32 rounding of now − t0 milliseconds; whenever the difference is below
2^24 ms the cast is exact, so the stored latency equals now − t0 and the
stored value plus t0 reconstructs now — the exact non-negative
difference. -/
theorem C9_latency (s : GameState) (now t0 a : Nat) (hmode : s.mode = .Client)
    (h1 : t0 ≤ now) (h2 : now < 2 ^ 128) (h3 : now - t0 < 2 ^ 24) :
    (handle_message s now a (.Pong t0)).1.ping_ms = now - t0 ∧
    (handle_message s now a (.Pong t0)).1.ping_ms + t0 = now := by
  have hred : (handle_message s now a (.Pong t0)).1
      = { s with ping_ms := f32RoundNat
                   ((now + 340282366920938463463374607431768211456 - t0)
                     % 340282366920938463463374607431768211456) } := by
    simp [handle_message, hmode]
  rw [show (2 : Nat) ^ 128 = 340282366920938463463374607431768211456 from by norm_num] at h2
  rw [show (2 : Nat) ^ 24 = 16777216 from by norm_num] at h3
  have hwrap : (now + 340282366920938463463374607431768211456 - t0)
      % 340282366920938463463374607431768211456 = now - t0 := by
    omega
  rw [hred, hwrap]
  constructor
  · show f32RoundNat (now - t0) = now - t0
    rw [f32RoundNat, if_pos h3]
  · show f32RoundNat (now - t0) + t0 = now
    rw [f32RoundNat, if_pos h3]
    omega

/-- C9 witness: a client that sent Ping{500} and receives Pong{500} at
700 stores 200 ms. -/
theorem C9_latency_witness :
    (handle_message clientState 700 1 (.Pong 500)).1.ping_ms = 200 ∧
    (handle_message clientState 700 1 (.Pong 500)).1.ping_ms + 500 = 700 :=
  C9_latency clientState 700 500 1 rfl (by decide) (by norm_num) (by norm_num)

/-- C10: receiving a ServerAnnounce from addr upserts the catalog entry
of addr with a fresh last-seen stamp in every role — the handler has no
role guard, so this holds for an arbitrary session state, hosting and
joined ones included; the mode is unchanged and nothing is sent. -/
theorem C10_announce_upsert_any_role (s : GameState) (now addr : Nat)
    (name : List Nat) (pc mp : Nat) :
    (handle_message s now addr (.ServerAnnounce name pc mp)).1.servers
        = insertA s.servers addr ⟨name, pc, mp, now⟩ ∧
    lookupA (handle_message s now addr (.ServerAnnounce name pc mp)).1.servers addr
        = some ⟨name, pc, mp, now⟩ ∧
    (handle_message s now addr (.ServerAnnounce name pc mp)).1.mode = s.mode ∧
    (handle_message s now addr (.ServerAnnounce name pc mp)).2.1 = [] :=
  ⟨rfl, lookupA_insertA_self _ _ _, rfl, rfl⟩

end Lspire
